import Mathlib

/-
  Verification of the review-fix loop core of the `code-review-agent-cli`
  repository (TypeScript).  The definitions below are a shallow embedding of
  the source files `src/utils/messages.ts`, `src/utils/formatting.ts`,
  `src/utils/prompts.ts` and `src/agent.ts`:

  * JavaScript strings are modelled as Lean `String` and `List Char`
    (one element per code point).
  * JavaScript numbers that hold counts/lengths are modelled as `Nat`;
    the caller-supplied `maxPasses` is modelled as `Int` (the source's
    `Number.isInteger` test corresponds to membership in `Int`).
  * The agent engine (`query(...)` from the SDK) is external; its event
    stream is modelled as a finite `List (Option Message)` where `none`
    stands for an event that is not an object with a string `type`
    (`executeQuery` skips those).  In the loop controller the whole pass
    executor is abstracted as an oracle `exec : Nat → QueryResult`
    giving the result of the k-th executor invocation.
  * Thrown `Error`s are modelled with `Except String`.
-/

namespace CodeReview

/-- The closed status enumeration returned by `getStatusFromOutput`
    (src/utils/messages.ts). -/
inductive Status where
  | all_clear
  | critical_remaining
  | unknown
  deriving DecidableEq, Repr

/-- One content block of an assistant message.  The source inspects three
    dynamic properties of a block: a `text` property holding a string, a
    `name` property holding a string, and `input.file_path` holding a string.
    A field is `none` when the property is absent or not a string (the source
    treats those cases identically to absence); `filePath` models
    `block.input.file_path` and is `none` when `input` is not an object or
    `file_path` is not a string. -/
structure Block where
  text : Option String
  name : Option String
  filePath : Option String
  deriving DecidableEq, Repr

/-- One structured event message.  `type` models `msg.type` (only messages
    whose `type` is a string reach the helpers; others are skipped by
    `executeQuery`).  `content` models `msg.message.content`: `none` when it
    is not an array. -/
structure Message where
  type : String
  content : Option (List Block)
  deriving DecidableEq, Repr

/-- The aggregated result of one executor invocation
    (interface `QueryResult` in src/utils/messages.ts). -/
structure QueryResult where
  lastText : String
  editCount : Nat
  editedFiles : List String
  deriving DecidableEq, Repr

/-- Terminal states of the loop controller `runRecursive` (src/agent.ts):
    the all-clear exit, the max-passes exit, and the early stop when a pass
    made no edits without declaring all clear. -/
inductive TerminalState where
  | allClear
  | maxPassesReached
  | stoppedNoEdits
  deriving DecidableEq, Repr

/-- The JavaScript whitespace set used by `String.prototype.trim` and by the
    regex class `\s`: tab, LF, VT, FF, CR, space, NBSP, and the Unicode
    space separators / line terminators / BOM. -/
def isJsWhitespace (c : Char) : Bool :=
  c.toNat = 0x09 || c.toNat = 0x0A || c.toNat = 0x0B || c.toNat = 0x0C ||
  c.toNat = 0x0D || c.toNat = 0x20 || c.toNat = 0xA0 || c.toNat = 0x1680 ||
  (0x2000 ≤ c.toNat && c.toNat ≤ 0x200A) || c.toNat = 0x2028 ||
  c.toNat = 0x2029 || c.toNat = 0x202F || c.toNat = 0x205F ||
  c.toNat = 0x3000 || c.toNat = 0xFEFF

/-- JavaScript `s.trim()` on the character list of a string. -/
def trimList (l : List Char) : List Char :=
  ((l.dropWhile isJsWhitespace).reverse.dropWhile isJsWhitespace).reverse

/-- A character matched by the regex class `[0-9;]` inside an ANSI color
    escape sequence. -/
def isParamChar (c : Char) : Bool :=
  c.isDigit || c = ';'

/-- Scanner state for `stripAnsiGo`: outside any escape sequence, after an
    ESC, or after `ESC [` with the parameter characters read so far. -/
inductive AnsiState where
  | normal
  | esc
  | params (ps : List Char)

/-- Left-to-right scanner implementing
    `text.replaceAll(/\x1b\[[0-9;]*m/g, "")` (src/utils/formatting.ts,
    `stripAnsiCodes`).  A match is `ESC [`, then a maximal run of `[0-9;]`,
    then `m`; since `m` is not a parameter character the greedy regex matches
    exactly these sequences, and no match can start inside a partial match
    (only `ESC` can start one), so flushing the pending characters on a
    mismatch and rescanning from the current character is faithful to the
    regex's global scan. -/
def stripAnsiGo : AnsiState → List Char → List Char
  | .normal, [] => []
  | .esc, [] => ['\u001b']
  | .params ps, [] => '\u001b' :: '[' :: ps
  | .normal, c :: cs =>
      if c = '\u001b' then stripAnsiGo .esc cs
      else c :: stripAnsiGo .normal cs
  | .esc, c :: cs =>
      if c = '[' then stripAnsiGo (.params []) cs
      else if c = '\u001b' then '\u001b' :: stripAnsiGo .esc cs
      else '\u001b' :: c :: stripAnsiGo .normal cs
  | .params ps, c :: cs =>
      if c = 'm' then stripAnsiGo .normal cs
      else if isParamChar c then stripAnsiGo (.params (ps ++ [c])) cs
      else if c = '\u001b' then ('\u001b' :: '[' :: ps) ++ stripAnsiGo .esc cs
      else ('\u001b' :: '[' :: ps) ++ (c :: stripAnsiGo .normal cs)

/-- `stripAnsiCodes` (src/utils/formatting.ts) on a character list. -/
def stripAnsi (l : List Char) : List Char :=
  stripAnsiGo .normal l

/-- `stripAnsiCodes` (src/utils/formatting.ts). -/
def stripAnsiCodes (s : String) : String :=
  String.mk (stripAnsi s.data)

/-- JavaScript `s.split("\n")`: segments between newline characters,
    empty segments included. -/
def splitLines : List Char → List (List Char)
  | [] => [[]]
  | c :: cs =>
      if c = '\n' then [] :: splitLines cs
      else
        match splitLines cs with
        | [] => [[c]]
        | l :: ls => (c :: l) :: ls

/-- Last element of a list, `none` on the empty list. -/
def lastOpt {α : Type} : List α → Option α
  | [] => none
  | [x] => some x
  | _ :: x :: xs => lastOpt (x :: xs)

/-- Numeric value of a decimal digit string (the effect of
    `Number.parseInt` on a string of ASCII digits; exact, since the only
    comparisons made on the result in the source are against small bounds
    below the double-precision exactness limit). -/
def digitsToNat (ds : List Char) : Nat :=
  ds.foldl (fun n c => n * 10 + (c.toNat - 48)) 0

/-- The anchored regex `/^CRITICAL_REMAINING:\s*(\d+)$/i` applied to the
    (already uppercased) last line, returning the value of the captured
    digit group on a match (src/utils/messages.ts line 70).  The literal
    part is matched in uppercase because the scrutinee has been uppercased;
    `\s*` is a greedy run of JS whitespace and `(\d+)$` a non-empty run of
    ASCII digits reaching the end of the string. -/
def parseCritLine (l : List Char) : Option Nat :=
  if l.take 19 = "CRITICAL_REMAINING:".data then
    let rest := (l.drop 19).dropWhile isJsWhitespace
    let digits := rest.takeWhile Char.isDigit
    if digits ≠ [] ∧ rest.dropWhile Char.isDigit = [] then
      some (digitsToNat digits)
    else none
  else none

/-- The normalized last line computed inside `getStatusFromOutput`
    (src/utils/messages.ts line 67):
    `stripAnsiCodes(lines[lines.length - 1].trim()).toUpperCase()` where
    `lines = text.trim().split("\n")`.  Note the order: the line is trimmed
    first, then ANSI codes are stripped, then it is uppercased — there is no
    final trim. -/
def normLastLine (s : String) : List Char :=
  (stripAnsi (trimList ((lastOpt (splitLines (trimList s.data))).getD []))).map
    Char.toUpper

/-- Classification of the normalized last line: the
    `ALL_CLEAR` comparison and the `CRITICAL_REMAINING` regex branch of
    `getStatusFromOutput` (src/utils/messages.ts lines 68-77).  The parsed
    count is accepted only when `count < 1000000`; `count === 0` maps to
    `all_clear`. -/
def classifyLine (lastLine : List Char) : Status :=
  if lastLine = "ALL_CLEAR".data then Status.all_clear
  else
    match parseCritLine lastLine with
    | some n =>
        if n < 1000000 then
          if n = 0 then Status.all_clear else Status.critical_remaining
        else Status.unknown
    | none => Status.unknown

/-- `getStatusFromOutput` (src/utils/messages.ts lines 63-78). -/
def getStatusFromOutput (text : String) : Status :=
  if trimList text.data = [] then Status.unknown
  else classifyLine (normLastLine text)

/-- `extractLastText` (src/utils/messages.ts lines 14-30): for an assistant
    message with an array `content`, the value of the last block carrying a
    string `text` property (the empty string included), `none` if there is
    no such block; `none` for any other message. -/
def extractLastText (msg : Message) : Option String :=
  if msg.type = "assistant" then
    match msg.content with
    | some blocks =>
        blocks.foldl
          (fun acc b => match b.text with | some t => some t | none => acc)
          none
    | none => none
  else none

/-- `isFileModificationBlock` (src/utils/messages.ts lines 32-36): the block
    has a `name` property equal to `"Edit"` or `"Write"`. -/
def isFileModificationBlock (b : Block) : Bool :=
  b.name == some "Edit" || b.name == some "Write"

/-- `getEditFilePath` (src/utils/messages.ts lines 38-44): the block's
    `input.file_path` when it is a non-empty string. -/
def getEditFilePath (b : Block) : Option String :=
  match b.filePath with
  | some p => if p.length > 0 then some p else none
  | none => none

/-- Insertion into a JavaScript `Set<string>` viewed through
    `Array.from`: membership-tested, appended at the end when new. -/
def insertSet (s : List String) (p : String) : List String :=
  if p ∈ s then s else s ++ [p]

/-- One iteration of the block loop inside `collectEdits`
    (src/utils/messages.ts lines 53-58), threading the running count and the
    accumulating file set. -/
def editStep (acc : Nat × List String) (b : Block) : Nat × List String :=
  if isFileModificationBlock b then
    (acc.1 + 1,
     match getEditFilePath b with
     | some p => insertSet acc.2 p
     | none => acc.2)
  else acc

/-- `collectEdits` (src/utils/messages.ts lines 46-61).  The source mutates
    the caller's `Set<string>` and returns the per-event count; here the set
    is passed and returned explicitly. -/
def collectEdits (msg : Message) (editedFiles : List String) :
    Nat × List String :=
  if msg.type = "assistant" then
    match msg.content with
    | some blocks => blocks.foldl editStep (0, editedFiles)
    | none => (0, editedFiles)
  else (0, editedFiles)

/-- One iteration of the event loop inside `executeQuery`
    (src/agent.ts lines 250-257): add the event's edit increment, and update
    `lastText` to `extractLastText(message) ?? lastText`.  A `none` event
    models a message skipped by the `isValidMessage` / string-`type` guards.
    The call to the external renderer (`showMessage`) has no effect on the
    result and is omitted. -/
def queryStep (st : QueryResult) (ev : Option Message) : QueryResult :=
  match ev with
  | none => st
  | some msg =>
      let r := collectEdits msg st.editedFiles
      { lastText := (extractLastText msg).getD st.lastText,
        editCount := st.editCount + r.1,
        editedFiles := r.2 }

/-- The event-stream fold of `executeQuery` starting from
    `lastText = ""`, `editCount = 0`, empty file set. -/
def processEvents (events : List (Option Message)) : QueryResult :=
  events.foldl queryStep { lastText := "", editCount := 0, editedFiles := [] }

/-- A character removed by the prompt sanitization regex
    `/[\x00-\x08\x0B\x0C\x0E-\x1F\x7F]/g` (src/agent.ts line 244): control
    characters other than tab, newline and carriage return. -/
def isStrippedControl (c : Char) : Bool :=
  c.toNat ≤ 0x08 || c.toNat = 0x0B || c.toNat = 0x0C ||
  (0x0E ≤ c.toNat && c.toNat ≤ 0x1F) || c.toNat = 0x7F

/-- The prompt sanitization of `executeQuery` (src/agent.ts line 244). -/
def sanitizeControlChars (l : List Char) : List Char :=
  l.filter (fun c => !(isStrippedControl c))

/-- `executeQuery` (src/agent.ts lines 237-264): reject a prompt that is
    empty after sanitization, otherwise fold the (finite) event stream into
    a `QueryResult`.  Engine transport failures would propagate as thrown
    errors; they are outside the event list model. -/
def executeQuery (prompt : String) (events : List (Option Message)) :
    Except String QueryResult :=
  if trimList (sanitizeControlChars prompt.data) = [] then
    Except.error "Prompt is empty after sanitization"
  else Except.ok (processEvents events)

/-- `editedFiles.join(", ")` (src/agent.ts line 306). -/
def joinComma : List String → String
  | [] => ""
  | [s] => s
  | s :: rest => s ++ ", " ++ joinComma rest

/-- The `fileList` local of `runRecursive` (src/agent.ts lines 305-307). -/
def reReviewFileList (files : List String) : String :=
  if files.length > 0 then
    "Re-review these modified files: " ++ joinComma files ++ "."
  else "Re-review all source files that were just modified."

/-- The `reReviewPrompt` local of `runRecursive`
    (src/agent.ts lines 308-309). -/
def reReviewPrompt (files : List String) : String :=
  reReviewFileList files ++
    " Check if the fixes introduced new issues. Fix any remaining Critical or Warning issues."

/-- The fix-mode directive prepended to the pass-1 prompt
    (`FIX_PROMPT_PREFIX` in src/agent.ts lines 137-140). -/
def fixPromptIntro : String :=
  "IMPORTANT: You are in fix mode. You MUST apply fixes using the Edit tool — do not just report issues. " ++
  "For each bug or issue you find, immediately call the Edit tool to fix it in the source file. " ++
  "Do NOT ask the user if they want fixes applied — apply them directly.\n\n"

/-- The `for (let pass = 2; pass <= maxPasses; pass++)` loop of
    `runRecursive` (src/agent.ts lines 292-321), after pass 1 has produced
    `result`.  `pass` is the 1-based index of the iteration about to run,
    `remaining = maxPasses - pass + 1` the number of iterations left, and
    the returned `Nat` the total number of executor invocations performed
    (each return point of the source returns with `pass - 1` invocations
    done).  `exec k` is the result of the k-th `executeQuery` call; its
    prompt (`fixPromptIntro ++ prompt` for pass 1, `reReviewPrompt` of the
    previous pass's files afterwards) always contains non-whitespace
    characters, so the sanitization check inside `executeQuery` cannot fire
    and the executor is modelled as total. -/
def runLoop (exec : Nat → QueryResult) (result : QueryResult)
    (pass : Nat) : Nat → TerminalState × Nat
  | 0 =>
      (if getStatusFromOutput result.lastText = Status.all_clear then
        TerminalState.allClear
      else TerminalState.maxPassesReached, pass - 1)
  | r + 1 =>
      if result.editCount = 0 then
        (if getStatusFromOutput result.lastText = Status.all_clear then
          TerminalState.allClear
        else TerminalState.stoppedNoEdits, pass - 1)
      else runLoop exec (exec pass) (pass + 1) r

/-- `runRecursive` (src/agent.ts lines 283-322): validate `maxPasses`
    (`Number.isInteger` is captured by the `Int` type), run pass 1, then the
    re-review loop.  Returns the terminal state together with the number of
    executor invocations performed. -/
def runRecursive (maxPasses : Int) (exec : Nat → QueryResult) :
    Except String (TerminalState × Nat) :=
  if maxPasses < 1 ∨ maxPasses > 100 then
    Except.error "maxPasses must be an integer between 1 and 100"
  else Except.ok (runLoop exec (exec 1) 2 (maxPasses.toNat - 1))

/-- JavaScript `Number.parseInt(s, 10)`: skip leading whitespace, read an
    optional sign and a maximal run of decimal digits; `none` models `NaN`
    (no digits).  Exact integer arithmetic is faithful here because the
    source only compares the result with `1` and caps it at `100000`, far
    below the double-precision exactness limit. -/
def jsParseInt (s : String) : Option Int :=
  let l := s.data.dropWhile isJsWhitespace
  match l with
  | '-' :: rest =>
      let ds := rest.takeWhile Char.isDigit
      if ds = [] then none else some (-(digitsToNat ds : Int))
  | '+' :: rest =>
      let ds := rest.takeWhile Char.isDigit
      if ds = [] then none else some (digitsToNat ds : Int)
  | _ =>
      let ds := l.takeWhile Char.isDigit
      if ds = [] then none else some (digitsToNat ds : Int)

/-- `MAX_PROMPT_LENGTH` (src/utils/prompts.ts lines 9-14) as a function of
    the `MAX_PROMPT_LENGTH` environment variable (`none` = unset).  An empty
    string is falsy in JavaScript, hence also yields the default. -/
def MAX_PROMPT_LENGTH (env : Option String) : Nat :=
  match env with
  | none => 50000
  | some v =>
      if v = "" then 50000
      else
        match jsParseInt v with
        | none => 50000
        | some n => if n < 1 then 50000 else min n.toNat 100000

/-- `validatePrompt` (src/utils/prompts.ts lines 66-73).  `!prompt` and
    `prompt.trim().length === 0` collapse to the single emptiness test
    (the empty string trims to the empty string). -/
def validatePrompt (env : Option String) (prompt : String) :
    Except String Unit :=
  if trimList prompt.data = [] then Except.error "Prompt cannot be empty"
  else if MAX_PROMPT_LENGTH env < prompt.length then
    Except.error ("Prompt exceeds maximum length of " ++
      toString (MAX_PROMPT_LENGTH env) ++ " characters")
  else Except.ok ()

/-- The caller options of `runAgent` that influence the modelled control
    flow (interface `AgentOptions` in src/agent.ts). -/
structure AgentOptions where
  fix : Bool
  fixRecursive : Bool
  maxPasses : Option Int
  deriving DecidableEq, Repr

/-- `runAgent` (src/agent.ts lines 335-355): `validatePrompt` runs first;
    afterwards the prompt-file loading, skill loading and option validation
    (pure I/O and checks that happen before any engine call) are elided, and
    the selected mode runs.  Returns the number of executor invocations
    performed.  Errors thrown inside the try block are wrapped by
    `wrapQueryError` with the `"Agent query failed: "` message prefix
    (src/agent.ts lines 324-333); in the single-pass modes the only
    modelled error is `executeQuery`'s sanitization check on the submitted
    prompt. -/
def runAgent (env : Option String) (prompt : String) (opts : AgentOptions)
    (exec : Nat → QueryResult) : Except String Nat :=
  match validatePrompt env prompt with
  | Except.error e => Except.error e
  | Except.ok _ =>
      if opts.fixRecursive then
        match runRecursive (opts.maxPasses.getD 5) exec with
        | Except.error e => Except.error ("Agent query failed: " ++ e)
        | Except.ok r => Except.ok r.2
      else
        let p := if opts.fix then fixPromptIntro ++ prompt else prompt
        if trimList (sanitizeControlChars p.data) = [] then
          Except.error "Agent query failed: Prompt is empty after sanitization"
        else Except.ok 1

/-- Spec phrase (claim C1): all string-valued text blocks of one event, in
    order — the blocks "emitted by the agent" in that event. -/
def msgTexts (msg : Message) : List String :=
  if msg.type = "assistant" then
    match msg.content with
    | some blocks => blocks.filterMap Block.text
    | none => []
  else []

/-- Spec phrase (claim C1): all text blocks emitted across the pass, in
    emission order. -/
def emittedTexts (events : List (Option Message)) : List String :=
  events.foldr
    (fun ev acc => (match ev with | some m => msgTexts m | none => []) ++ acc)
    []

/-- Modelled from the spec (claim C1 wording): "the most recent non-empty
    text block emitted by the agent across the pass; empty string if none
    emitted". -/
def specLastNonEmptyText (events : List (Option Message)) : String :=
  (lastOpt ((emittedTexts events).filter (fun t => t != ""))).getD ""

/-- The amended C1 value: the most recent text block emitted across the
    pass, whether or not empty; empty string if none. -/
def specLastText (events : List (Option Message)) : String :=
  (lastOpt (emittedTexts events)).getD ""

/-- Modelled from the spec (claim C2 wording): "take the last
    non-empty-after-trim line" of the trimmed input. -/
def specLastNonEmptyLine (s : String) : List Char :=
  (lastOpt ((splitLines (trimList s.data)).filter
    (fun l => !(trimList l).isEmpty))).getD []

/-- Modelled from the spec (claim C2 wording): normalize a line by
    "stripping ANSI escape sequences, uppercasing, and trimming again". -/
def specNormalizeC2 (line : List Char) : List Char :=
  trimList ((stripAnsi line).map Char.toUpper)

/-- Modelled from the spec (claim C3 wording): match
    `CRITICAL_REMAINING: <N>` where `<N>` is "a non-negative integer with at
    most 6 digits"; same shape as `parseCritLine` but with the digit-count
    bound the claim states. -/
def specCritMatchC3 (l : List Char) : Option Nat :=
  if l.take 19 = "CRITICAL_REMAINING:".data then
    let rest := (l.drop 19).dropWhile isJsWhitespace
    let digits := rest.takeWhile Char.isDigit
    if digits ≠ [] ∧ digits.length ≤ 6 ∧ rest.dropWhile Char.isDigit = [] then
      some (digitsToNat digits)
    else none
  else none

/-- A string textually contains `sub` (as a contiguous character run). -/
def containsChars (hay : String) (sub : List Char) : Prop :=
  ∃ a b, hay.data = a ++ sub ++ b

/-- Event list refuting claim C1: one assistant event whose content carries
    a non-empty text block followed by an empty text block. -/
def c1cexEvents : List (Option Message) :=
  [some { type := "assistant",
          content := some
            [{ text := some "hello", name := none, filePath := none },
             { text := some "", name := none, filePath := none }] }]

/-- Input refuting claim C2: the trailing ANSI reset sequence leaves a
    trailing space after stripping, and the code never re-trims. -/
def c2cex : String := "ALL_CLEAR \u001b[0m"

/-- Input refuting claim C3: `<N>` has 7 digits but parses to 1. -/
def c3cex : String := "CRITICAL_REMAINING: 0000001"

/-- Assistant event with three file-modification blocks over two distinct
    paths (spec's Edit Tracker example). -/
def exThreeEdits : Message :=
  { type := "assistant",
    content := some
      [{ text := none, name := some "Edit", filePath := some "a.ts" },
       { text := none, name := some "Write", filePath := some "b.ts" },
       { text := none, name := some "Edit", filePath := some "a.ts" }] }

/-- Assistant event with no file-modification blocks. -/
def exNoEdits : Message :=
  { type := "assistant",
    content := some [{ text := some "done", name := none, filePath := none }] }

/-- Executor oracle for the claim C4 witness: pass 1 makes no edits and
    ends with a non-conforming last line (the spec's scenario C). -/
def w4exec : Nat → QueryResult :=
  fun _ =>
    { lastText := "looks fine, CRITICAL_REMAINING: 1", editCount := 0,
      editedFiles := [] }

/-- Executor oracle for the claim C5 witness: every pass edits one file and
    never declares all clear (the spec's scenario B). -/
def w5exec : Nat → QueryResult :=
  fun _ =>
    { lastText := "CRITICAL_REMAINING: 2", editCount := 1,
      editedFiles := ["a.ts"] }

/-- A prompt longer than the default 50000-character bound. -/
def bigPrompt : String := String.mk (List.replicate 50001 'x')

/-- The file path contributed by one block to the edited-file set:
    the path of a file-modification block, `none` otherwise. -/
def editPath (b : Block) : Option String :=
  if isFileModificationBlock b then getEditFilePath b else none

/-! Helper lemmas. -/

theorem lastOpt_pair {α : Type} (a x : α) (xs : List α) :
    lastOpt (a :: x :: xs) = lastOpt (x :: xs) := rfl

theorem lastOpt_isSome {α : Type} (a : α) (l : List α) :
    (lastOpt (a :: l)).isSome = true := by
  induction l generalizing a with
  | nil => rfl
  | cons x xs ih => rw [lastOpt_pair]; exact ih x

theorem lastOpt_cons {α : Type} (a : α) (l : List α) :
    lastOpt (a :: l) =
      match lastOpt l with | some x => some x | none => some a := by
  cases l with
  | nil => rfl
  | cons x xs =>
    rw [lastOpt_pair]
    cases h : lastOpt (x :: xs) with
    | some y => rfl
    | none =>
      have := lastOpt_isSome x xs
      rw [h] at this
      cases this

theorem lastOpt_append {α : Type} (l₁ l₂ : List α) :
    lastOpt (l₁ ++ l₂) =
      match lastOpt l₂ with | some x => some x | none => lastOpt l₁ := by
  induction l₁ with
  | nil =>
    cases h : lastOpt l₂ with
    | some y => simpa using h
    | none => simpa using h
  | cons a t ih =>
    rw [List.cons_append, lastOpt_cons, ih, lastOpt_cons]
    cases h₂ : lastOpt l₂ with
    | some y => rfl
    | none => rfl

theorem runLoop_zero (exec : Nat → QueryResult) (res : QueryResult)
    (pass : Nat) :
    runLoop exec res pass 0 =
      (if getStatusFromOutput res.lastText = Status.all_clear then
        TerminalState.allClear
      else TerminalState.maxPassesReached, pass - 1) := rfl

theorem runLoop_succ (exec : Nat → QueryResult) (res : QueryResult)
    (pass r : Nat) :
    runLoop exec res pass (r + 1) =
      if res.editCount = 0 then
        (if getStatusFromOutput res.lastText = Status.all_clear then
          TerminalState.allClear
        else TerminalState.stoppedNoEdits, pass - 1)
      else runLoop exec (exec pass) (pass + 1) r := rfl

theorem runLoop_bound (exec : Nat → QueryResult) :
    ∀ (remaining pass : Nat) (res : QueryResult) (st : TerminalState)
      (n : Nat), 1 ≤ pass →
      runLoop exec res pass remaining = (st, n) → n ≤ pass - 1 + remaining := by
  intro remaining
  induction remaining with
  | zero =>
    intro pass res st n hp h
    rw [runLoop_zero] at h
    have := congrArg Prod.snd h
    simp at this
    omega
  | succ r ih =>
    intro pass res st n hp h
    rw [runLoop_succ] at h
    split at h
    · have := congrArg Prod.snd h
      simp at this
      omega
    · have := ih (pass + 1) (exec pass) st n (by omega) h
      omega

theorem runLoop_lower (exec : Nat → QueryResult) :
    ∀ (remaining pass : Nat) (res : QueryResult) (st : TerminalState)
      (n : Nat), 1 ≤ pass →
      runLoop exec res pass remaining = (st, n) → pass - 1 ≤ n := by
  intro remaining
  induction remaining with
  | zero =>
    intro pass res st n hp h
    rw [runLoop_zero] at h
    have := congrArg Prod.snd h
    simp at this
    omega
  | succ r ih =>
    intro pass res st n hp h
    rw [runLoop_succ] at h
    split at h
    · have := congrArg Prod.snd h
      simp at this
      omega
    · have := ih (pass + 1) (exec pass) st n (by omega) h
      omega

/-! Status extractor: claims C2 and C3. -/

/-- Claim C2, amended: `getStatusFromOutput` returns `unknown` on input that
    is empty after trimming, and returns `all_clear` on every input whose
    last line — after trimming the line, then stripping ANSI escape
    sequences, then uppercasing (the code's order; there is no final trim) —
    equals exactly `ALL_CLEAR`. -/
theorem getStatusFromOutput_allClear (s : String) :
    (trimList s.data = [] → getStatusFromOutput s = Status.unknown) ∧
    (trimList s.data ≠ [] → normLastLine s = "ALL_CLEAR".data →
      getStatusFromOutput s = Status.all_clear) := by
  constructor
  · intro h
    simp [getStatusFromOutput, h]
  · intro h h2
    rw [getStatusFromOutput, if_neg h, h2]
    decide

/-- Counterexample to claim C2 as stated: the input `"ALL_CLEAR \u001b[0m"`
    has a single (hence last, non-empty-after-trim) line which, normalized
    in the claim's order (strip ANSI codes, uppercase, trim again), equals
    exactly `ALL_CLEAR`; yet `getStatusFromOutput` returns `unknown`,
    because the code trims before stripping and never re-trims, leaving the
    space that preceded the ANSI reset sequence. -/
theorem getStatusFromOutput_allClear_counterexample :
    specNormalizeC2 (specLastNonEmptyLine c2cex) = "ALL_CLEAR".data ∧
    getStatusFromOutput c2cex = Status.unknown :=
  ⟨by decide, by decide⟩

/-- Witness for claim C2: the literal `ALL_CLEAR` input classifies as
    `all_clear`. -/
theorem getStatusFromOutput_allClear_witness :
    getStatusFromOutput "ALL_CLEAR" = Status.all_clear :=
  (getStatusFromOutput_allClear "ALL_CLEAR").2 (by decide) (by decide)

/-- Claim C3, amended: when the normalized last line matches
    `CRITICAL_REMAINING: <digits>` (any number of digits, leading zeros
    allowed), the result is `all_clear` for parsed value 0,
    `critical_remaining` for values below 1000000, and `unknown` for values
    of at least 1000000 — the code bounds the parsed value, not the digit
    count. -/
theorem getStatusFromOutput_critical (s : String) (n : Nat)
    (h1 : trimList s.data ≠ [])
    (h2 : parseCritLine (normLastLine s) = some n) :
    getStatusFromOutput s =
      (if n = 0 then Status.all_clear
       else if n < 1000000 then Status.critical_remaining
       else Status.unknown) := by
  have hne : normLastLine s ≠ "ALL_CLEAR".data := by
    intro he
    rw [he] at h2
    have h3 : parseCritLine ("ALL_CLEAR".data) = none := by decide
    rw [h3] at h2
    exact Option.noConfusion h2
  rw [getStatusFromOutput, if_neg h1, classifyLine, if_neg hne, h2]
  by_cases h0 : n = 0
  · subst h0
    simp
  · by_cases hlt : n < 1000000 <;> simp [h0, hlt]

/-- Counterexample to claim C3 as stated: the last line
    `CRITICAL_REMAINING: 0000001` carries a 7-digit `<N>` (shown by the
    second conjunct), so per the claim it "does not match and yields
    unknown"; the code parses it to 1 and returns `critical_remaining`.
    The first conjunct shows the claim's own at-most-6-digit matcher indeed
    rejects this line. -/
theorem getStatusFromOutput_critical_counterexample :
    specCritMatchC3 (normLastLine c3cex) = none ∧
    (((normLastLine c3cex).drop 19).dropWhile
      isJsWhitespace).takeWhile Char.isDigit = "0000001".data ∧
    getStatusFromOutput c3cex = Status.critical_remaining :=
  ⟨by decide, by decide, by decide⟩

/-- Witness for claim C3: `CRITICAL_REMAINING: 3` classifies as
    `critical_remaining`. -/
theorem getStatusFromOutput_critical_witness :
    getStatusFromOutput "CRITICAL_REMAINING: 3" = Status.critical_remaining := by
  have h := getStatusFromOutput_critical "CRITICAL_REMAINING: 3" 3
    (by decide) (by decide)
  exact h.trans (by decide)

/-! Pass executor: claims C1 and C9. -/

theorem textFold (blocks : List Block) :
    ∀ init : Option String,
      blocks.foldl
        (fun acc b => match b.text with | some t => some t | none => acc)
        init =
      match lastOpt (blocks.filterMap Block.text) with
      | some t => some t
      | none => init := by
  induction blocks with
  | nil => intro init; rfl
  | cons b bs ih =>
    intro init
    rw [List.foldl_cons, ih, List.filterMap_cons]
    cases hb : b.text with
    | none => rfl
    | some t =>
      rw [lastOpt_cons]
      cases h : lastOpt (bs.filterMap Block.text) with
      | some x => rfl
      | none => rfl

theorem extractLastText_eq (msg : Message) :
    extractLastText msg = lastOpt (msgTexts msg) := by
  unfold extractLastText msgTexts
  by_cases h : msg.type = "assistant"
  · rw [if_pos h, if_pos h]
    cases hc : msg.content with
    | none => rfl
    | some blocks =>
      show blocks.foldl
        (fun acc b => match b.text with | some t => some t | none => acc)
        none = lastOpt (blocks.filterMap Block.text)
      rw [textFold]
      cases hl : lastOpt (blocks.filterMap Block.text) with
      | some t => rfl
      | none => rfl
  · rw [if_neg h, if_neg h]
    rfl

theorem queryStep_lastText (st : QueryResult) (ev : Option Message) :
    (queryStep st ev).lastText =
      (lastOpt (match ev with | some m => msgTexts m | none => [])).getD
        st.lastText := by
  cases ev with
  | none => rfl
  | some m =>
    show (extractLastText m).getD st.lastText = _
    rw [extractLastText_eq]

theorem emittedTexts_cons (ev : Option Message)
    (rest : List (Option Message)) :
    emittedTexts (ev :: rest) =
      (match ev with | some m => msgTexts m | none => []) ++
        emittedTexts rest := rfl

theorem processLastText (events : List (Option Message)) :
    ∀ st : QueryResult,
      (events.foldl queryStep st).lastText =
        (lastOpt (emittedTexts events)).getD st.lastText := by
  induction events with
  | nil => intro st; rfl
  | cons ev rest ih =>
    intro st
    rw [List.foldl_cons, ih, emittedTexts_cons, lastOpt_append]
    cases h : lastOpt (emittedTexts rest) with
    | some x => rfl
    | none =>
      show (queryStep st ev).lastText = _
      rw [queryStep_lastText]

/-- Claim C1, amended: across a pass, `lastText` is the value of the most
    recent string-valued text block emitted by the agent — the empty string
    included, so a late empty text block overwrites an earlier non-empty
    one — and is the empty string when no text block was emitted. -/
theorem executeQuery_lastText (prompt : String)
    (events : List (Option Message)) (r : QueryResult)
    (h : executeQuery prompt events = Except.ok r) :
    r.lastText = specLastText events := by
  unfold executeQuery at h
  split at h
  · exact absurd h (by simp)
  · have h2 : processEvents events = r := Except.ok.inj h
    rw [← h2]
    exact processLastText events _

/-- Counterexample to claim C1 as stated: a pass whose single assistant
    event carries the text blocks `"hello"` then `""` ends with
    `lastText = ""`, not the most recent non-empty text block `"hello"` —
    `extractLastText` accepts empty text blocks. -/
theorem executeQuery_lastText_counterexample :
    executeQuery "p" c1cexEvents = Except.ok (QueryResult.mk "" 0 []) ∧
    specLastNonEmptyText c1cexEvents = "hello" ∧
    (QueryResult.mk "" 0 []).lastText ≠ specLastNonEmptyText c1cexEvents :=
  ⟨rfl, by decide, by decide⟩

/-- Witness for claim C1: an empty event stream yields the empty
    `lastText`. -/
theorem executeQuery_lastText_witness :
    (QueryResult.mk "" 0 []).lastText = specLastText [] :=
  executeQuery_lastText "p" [] (QueryResult.mk "" 0 []) rfl

theorem mem_insertSet (s : List String) (p q : String) :
    q ∈ insertSet s p ↔ q ∈ s ∨ q = p := by
  unfold insertSet
  split
  · rename_i h
    constructor
    · exact Or.inl
    · rintro (hq | rfl)
      · exact hq
      · exact h
  · simp [List.mem_append]

theorem insertSet_length (s : List String) (p : String) :
    (insertSet s p).length ≤ s.length + 1 := by
  unfold insertSet
  split
  · omega
  · simp

theorem editStep_mod (c : Nat) (fs : List String) (b : Block)
    (hb : isFileModificationBlock b = true) :
    editStep (c, fs) b =
      (c + 1,
       match getEditFilePath b with
       | some p => insertSet fs p
       | none => fs) := by
  unfold editStep
  rw [if_pos hb]

theorem editStep_other (c : Nat) (fs : List String) (b : Block)
    (hb : ¬isFileModificationBlock b = true) :
    editStep (c, fs) b = (c, fs) := by
  unfold editStep
  rw [if_neg hb]

theorem editFold_count (blocks : List Block) :
    ∀ (c : Nat) (fs : List String),
      (blocks.foldl editStep (c, fs)).1 =
        c + (blocks.filter isFileModificationBlock).length := by
  induction blocks with
  | nil => intro c fs; simp
  | cons b bs ih =>
    intro c fs
    rw [List.foldl_cons, List.filter_cons]
    by_cases hb : isFileModificationBlock b = true
    · rw [editStep_mod c fs b hb, if_pos hb, ih]
      simp
      omega
    · rw [editStep_other c fs b hb, if_neg hb, ih]

theorem editFold_files (blocks : List Block) :
    ∀ (c : Nat) (fs : List String),
      (blocks.foldl editStep (c, fs)).2 =
        (blocks.filterMap editPath).foldl insertSet fs := by
  induction blocks with
  | nil => intro c fs; rfl
  | cons b bs ih =>
    intro c fs
    rw [List.foldl_cons, List.filterMap_cons]
    by_cases hb : isFileModificationBlock b = true
    · rw [editStep_mod c fs b hb]
      have hp : editPath b = getEditFilePath b := by
        unfold editPath
        rw [if_pos hb]
      cases hfp : getEditFilePath b with
      | some p =>
        rw [hp, hfp, ih]
        rfl
      | none =>
        rw [hp, hfp, ih]
    · rw [editStep_other c fs b hb]
      have hp : editPath b = none := by
        unfold editPath
        rw [if_neg hb]
      rw [hp, ih]

theorem mem_foldl_insertSet (ps : List String) :
    ∀ (fs : List String) (p : String),
      p ∈ ps.foldl insertSet fs ↔ p ∈ fs ∨ p ∈ ps := by
  induction ps with
  | nil => intro fs p; simp
  | cons q qs ih =>
    intro fs p
    rw [List.foldl_cons, ih, mem_insertSet]
    simp [List.mem_cons]
    tauto

theorem editPath_eq_some (b : Block) (p : String) :
    editPath b = some p ↔
      isFileModificationBlock b = true ∧ getEditFilePath b = some p := by
  unfold editPath
  split <;> simp_all

/-- Claim C7: `collectEdits` returns 0 and leaves the file set unchanged
    for any non-assistant event; for an assistant event with a content
    array it returns the number of blocks named `Edit` or `Write` and adds
    exactly the non-empty file paths of those blocks to the set.  Three
    mutating blocks over two distinct paths give count 3 and a 2-element
    set; no mutating blocks give count 0 and an unchanged (empty) set. -/
theorem collectEdits_spec (msg : Message) (files : List String) :
    (msg.type ≠ "assistant" → collectEdits msg files = (0, files)) ∧
    (msg.type = "assistant" → ∀ blocks, msg.content = some blocks →
      (collectEdits msg files).1 =
        (blocks.filter isFileModificationBlock).length ∧
      (∀ p, p ∈ (collectEdits msg files).2 ↔
        p ∈ files ∨ ∃ b, b ∈ blocks ∧ isFileModificationBlock b = true ∧
          getEditFilePath b = some p)) ∧
    collectEdits exThreeEdits [] = (3, ["a.ts", "b.ts"]) ∧
    (collectEdits exThreeEdits []).2.length = 2 ∧
    collectEdits exNoEdits [] = (0, []) := by
  refine ⟨?_, ?_, by decide, by decide, by decide⟩
  · intro h
    unfold collectEdits
    rw [if_neg h]
  · intro h blocks hc
    unfold collectEdits
    rw [if_pos h, hc]
    constructor
    · have := editFold_count blocks 0 files
      simpa using this
    · intro p
      rw [editFold_files, mem_foldl_insertSet, List.mem_filterMap]
      constructor
      · rintro (hf | ⟨b, hb, hep⟩)
        · exact Or.inl hf
        · rcases (editPath_eq_some b p).mp hep with ⟨hmod, hfp⟩
          exact Or.inr ⟨b, hb, hmod, hfp⟩
      · rintro (hf | ⟨b, hb, hmod, hfp⟩)
        · exact Or.inl hf
        · exact Or.inr ⟨b, hb, (editPath_eq_some b p).mpr ⟨hmod, hfp⟩⟩

/-- Witness for claim C7: a non-assistant event contributes nothing. -/
theorem collectEdits_spec_witness :
    collectEdits (Message.mk "user" none) [] = (0, []) :=
  (collectEdits_spec (Message.mk "user" none) []).1 (by decide)

theorem editFold_le (blocks : List Block) :
    ∀ (c : Nat) (fs : List String),
      (blocks.foldl editStep (c, fs)).2.length + c ≤
        (blocks.foldl editStep (c, fs)).1 + fs.length := by
  induction blocks with
  | nil =>
    intro c fs
    simp
    omega
  | cons b bs ih =>
    intro c fs
    rw [List.foldl_cons]
    by_cases hb : isFileModificationBlock b = true
    · rw [editStep_mod c fs b hb]
      have hfs :
          (match getEditFilePath b with
           | some p => insertSet fs p
           | none => fs).length ≤ fs.length + 1 := by
        cases getEditFilePath b with
        | some p => exact insertSet_length fs p
        | none => exact Nat.le_succ _
      have h2 := ih (c + 1)
        (match getEditFilePath b with
         | some p => insertSet fs p
         | none => fs)
      omega
    · rw [editStep_other c fs b hb]
      exact ih c fs

theorem collectEdits_le (msg : Message) (files : List String) :
    (collectEdits msg files).2.length ≤
      (collectEdits msg files).1 + files.length := by
  unfold collectEdits
  split
  · cases hc : msg.content with
    | none =>
      show files.length ≤ 0 + files.length
      omega
    | some blocks =>
      show (blocks.foldl editStep (0, files)).2.length ≤
        (blocks.foldl editStep (0, files)).1 + files.length
      have := editFold_le blocks 0 files
      omega
  · simp

theorem processEvents_inv (events : List (Option Message)) :
    ∀ st : QueryResult, st.editedFiles.length ≤ st.editCount →
      (events.foldl queryStep st).editedFiles.length ≤
        (events.foldl queryStep st).editCount := by
  induction events with
  | nil => intro st h; exact h
  | cons ev rest ih =>
    intro st h
    rw [List.foldl_cons]
    apply ih
    cases ev with
    | none => exact h
    | some m =>
      show (collectEdits m st.editedFiles).2.length ≤
        st.editCount + (collectEdits m st.editedFiles).1
      have := collectEdits_le m st.editedFiles
      omega

/-- Claim C9: every `QueryResult` produced by `executeQuery` satisfies
    `editedFiles.length ≤ editCount` — each counted mutating block adds at
    most one (deduplicated) path to the set. -/
theorem executeQuery_editCount_ge_files (prompt : String)
    (events : List (Option Message)) (r : QueryResult)
    (h : executeQuery prompt events = Except.ok r) :
    r.editedFiles.length ≤ r.editCount := by
  unfold executeQuery at h
  split at h
  · exact absurd h (by simp)
  · have h2 : processEvents events = r := Except.ok.inj h
    rw [← h2]
    unfold processEvents
    exact processEvents_inv events _ (by decide)

/-- Witness for claim C9: the empty stream gives `0 ≤ 0`. -/
theorem executeQuery_editCount_ge_files_witness :
    (QueryResult.mk "" 0 []).editedFiles.length ≤
      (QueryResult.mk "" 0 []).editCount :=
  executeQuery_editCount_ge_files "p" [] (QueryResult.mk "" 0 []) rfl

/-! Loop controller: claims C4, C5, C6. -/

theorem runLoop_stops (exec : Nat → QueryResult) (p : Nat)
    (hz : (exec (p - 1)).editCount = 0) :
    ∀ (remaining pass : Nat), 2 ≤ pass → pass ≤ p →
      p ≤ pass + remaining - 1 →
      (∀ q, pass ≤ q + 1 → q + 2 ≤ p → (exec q).editCount ≠ 0) →
      runLoop exec (exec (pass - 1)) pass remaining =
        (if getStatusFromOutput (exec (p - 1)).lastText = Status.all_clear
          then TerminalState.allClear else TerminalState.stoppedNoEdits,
         p - 1) := by
  intro remaining
  induction remaining with
  | zero =>
    intro pass h2 hle hub hed
    exact absurd hub (by omega)
  | succ r ih =>
    intro pass h2 hle hub hed
    rw [runLoop_succ]
    by_cases hp : pass = p
    · subst hp
      rw [if_pos hz]
    · have hplt : pass < p := lt_of_le_of_ne hle hp
      have hne : (exec (pass - 1)).editCount ≠ 0 :=
        hed (pass - 1) (by omega) (by omega)
      rw [if_neg hne]
      exact ih (pass + 1) (by omega) (by omega) (by omega)
        (fun q hq1 hq2 => hed q (by omega) hq2)

/-- Claim C4: whenever the loop reaches pass `p` (2 ≤ p ≤ maxPasses, all
    earlier loop checks saw edits) and the result of pass `p-1` has
    `editCount = 0`, no further executor invocation is made — exactly `p-1`
    invocations occur — and the loop ends in `ALL_CLEAR` when that result's
    `lastText` classifies as `all_clear`, otherwise in `STOPPED_NO_EDITS`
    (so `critical_remaining` or `unknown` with zero edits always stops). -/
theorem runRecursive_stopsOnZeroEdits (maxPasses : Int)
    (exec : Nat → QueryResult) (p : Nat)
    (hmp1 : 1 ≤ maxPasses) (hmp2 : maxPasses ≤ 100) (hp2 : 2 ≤ p)
    (hpm : (p : Int) ≤ maxPasses)
    (hedits : ∀ q, 1 ≤ q → q + 2 ≤ p → (exec q).editCount ≠ 0)
    (hz : (exec (p - 1)).editCount = 0) :
    runRecursive maxPasses exec =
      Except.ok
        (if getStatusFromOutput (exec (p - 1)).lastText = Status.all_clear
          then TerminalState.allClear else TerminalState.stoppedNoEdits,
         p - 1) := by
  unfold runRecursive
  rw [if_neg (by omega)]
  exact congrArg Except.ok
    (runLoop_stops exec p hz (maxPasses.toNat - 1) 2 (by omega) hp2
      (by omega) (fun q hq1 hq2 => hedits q (by omega) hq2))

/-- Witness for claim C4 (the spec's scenario C): pass 1 makes no edits and
    ends with a non-conforming last line, so the loop stops after exactly
    one invocation in `STOPPED_NO_EDITS`. -/
theorem runRecursive_stopsOnZeroEdits_witness :
    runRecursive 3 w4exec = Except.ok (TerminalState.stoppedNoEdits, 1) := by
  have h := runRecursive_stopsOnZeroEdits 3 w4exec 2 (by decide) (by decide)
    (by decide) (by decide) (fun q hq1 hq2 => False.elim (by omega))
    (by decide)
  exact h.trans (congrArg Except.ok (by decide))

theorem runLoop_all_edits (exec : Nat → QueryResult) :
    ∀ (remaining pass : Nat), 2 ≤ pass →
      (∀ q, pass ≤ q + 1 → q + 2 ≤ pass + remaining →
        (exec q).editCount ≠ 0) →
      runLoop exec (exec (pass - 1)) pass remaining =
        (if getStatusFromOutput (exec (pass - 1 + remaining)).lastText =
            Status.all_clear
          then TerminalState.allClear else TerminalState.maxPassesReached,
         pass - 1 + remaining) := by
  intro remaining
  induction remaining with
  | zero =>
    intro pass h2 hed
    rw [runLoop_zero]
    simp
  | succ r ih =>
    intro pass h2 hed
    rw [runLoop_succ]
    have hne : (exec (pass - 1)).editCount ≠ 0 :=
      hed (pass - 1) (by omega) (by omega)
    rw [if_neg hne]
    have h := ih (pass + 1) (by omega)
      (fun q hq1 hq2 => hed q (by omega) (by omega))
    simp only [Nat.add_sub_cancel] at h
    rw [h, show pass + r = pass - 1 + (r + 1) from by omega]

/-- Claim C5: for every accepted `maxPasses` the loop terminates with at
    most `maxPasses` executor invocations; and when every pass reports at
    least one edit and the final `lastText` does not classify as
    `all_clear`, exactly `maxPasses` invocations occur and the terminal
    state is `MAX_PASSES_REACHED`. -/
theorem runRecursive_bounded_maxPasses (maxPasses : Int)
    (exec : Nat → QueryResult)
    (h1 : 1 ≤ maxPasses) (h2 : maxPasses ≤ 100) :
    (∃ st n, runRecursive maxPasses exec = Except.ok (st, n) ∧
      n ≤ maxPasses.toNat) ∧
    ((∀ q, 1 ≤ q → q ≤ maxPasses.toNat → (exec q).editCount ≠ 0) →
      getStatusFromOutput (exec maxPasses.toNat).lastText ≠
        Status.all_clear →
      runRecursive maxPasses exec =
        Except.ok (TerminalState.maxPassesReached, maxPasses.toNat)) := by
  have hnn : ¬(maxPasses < 1 ∨ maxPasses > 100) := by omega
  constructor
  · refine ⟨(runLoop exec (exec 1) 2 (maxPasses.toNat - 1)).1,
      (runLoop exec (exec 1) 2 (maxPasses.toNat - 1)).2, ?_, ?_⟩
    · unfold runRecursive
      rw [if_neg hnn]
    · have hb := runLoop_bound exec (maxPasses.toNat - 1) 2 (exec 1)
        (runLoop exec (exec 1) 2 (maxPasses.toNat - 1)).1
        (runLoop exec (exec 1) 2 (maxPasses.toNat - 1)).2
        (by omega) rfl
      omega
  · intro hed hfin
    unfold runRecursive
    rw [if_neg hnn]
    have hall := runLoop_all_edits exec (maxPasses.toNat - 1) 2 (by omega)
      (fun q hq1 hq2 => hed q (by omega) (by omega))
    rw [show (2 : Nat) - 1 = 1 from rfl] at hall
    rw [show 1 + (maxPasses.toNat - 1) = maxPasses.toNat from by omega]
      at hall
    rw [hall, if_neg hfin]

/-- Witness for claim C5 (the spec's scenario B): `maxPasses = 3`, every
    pass edits a file and ends with `CRITICAL_REMAINING: 2`, so the loop
    makes exactly 3 invocations and ends in `MAX_PASSES_REACHED`. -/
theorem runRecursive_bounded_maxPasses_witness :
    runRecursive 3 w5exec = Except.ok (TerminalState.maxPassesReached, 3) := by
  have h := (runRecursive_bounded_maxPasses 3 w5exec (by decide)
    (by decide)).2 (fun q hq1 hq2 => by simp [w5exec]) (by decide)
  exact h

/-- Claim C6: `runRecursive` fails immediately with the configuration
    error, with no executor invocation, exactly when `maxPasses` lies
    outside 1..100 (non-integer inputs are excluded by the `Int` model
    of `Number.isInteger`); for every integer in range, it returns a
    terminal state after at least one executor invocation. -/
theorem runRecursive_validatesMaxPasses (maxPasses : Int)
    (exec : Nat → QueryResult) :
    ((maxPasses < 1 ∨ 100 < maxPasses) →
      runRecursive maxPasses exec =
        Except.error "maxPasses must be an integer between 1 and 100") ∧
    (1 ≤ maxPasses → maxPasses ≤ 100 →
      ∃ st n, runRecursive maxPasses exec = Except.ok (st, n) ∧ 1 ≤ n) := by
  constructor
  · intro h
    unfold runRecursive
    rw [if_pos h]
  · intro h1 h2
    unfold runRecursive
    rw [if_neg (by omega)]
    refine ⟨(runLoop exec (exec 1) 2 (maxPasses.toNat - 1)).1,
      (runLoop exec (exec 1) 2 (maxPasses.toNat - 1)).2, rfl, ?_⟩
    have hl := runLoop_lower exec (maxPasses.toNat - 1) 2 (exec 1)
      (runLoop exec (exec 1) 2 (maxPasses.toNat - 1)).1
      (runLoop exec (exec 1) 2 (maxPasses.toNat - 1)).2
      (by omega) rfl
    omega

/-- Witness for claim C6: `maxPasses = 0` is rejected with zero
    invocations; `maxPasses = 5` runs at least one pass. -/
theorem runRecursive_validatesMaxPasses_witness :
    runRecursive 0 w5exec =
      Except.error "maxPasses must be an integer between 1 and 100" ∧
    (∃ st n, runRecursive 5 w5exec = Except.ok (st, n) ∧ 1 ≤ n) :=
  ⟨(runRecursive_validatesMaxPasses 0 w5exec).1 (Or.inl (by decide)),
   (runRecursive_validatesMaxPasses 5 w5exec).2 (by decide) (by decide)⟩

/-! Re-review prompt: claim C8. -/

theorem stringData_append (a b : String) :
    (a ++ b).data = a.data ++ b.data := rfl

theorem mem_joinComma : ∀ (files : List String) (p : String), p ∈ files →
    ∃ a b, (joinComma files).data = a ++ p.data ++ b := by
  intro files
  induction files with
  | nil => intro p hp; cases hp
  | cons s rest ih =>
    intro p hp
    cases rest with
    | nil =>
      have hps : p = s := by simpa using hp
      subst hps
      exact ⟨[], [], by simp [joinComma]⟩
    | cons t ts =>
      rcases List.mem_cons.mp hp with hps | hmem
      · subst hps
        exact ⟨[], (", ").data ++ (joinComma (t :: ts)).data,
          by simp [joinComma, stringData_append, List.append_assoc]⟩
      · rcases ih p hmem with ⟨a, b, hab⟩
        exact ⟨s.data ++ (", ").data ++ a, b,
          by simp [joinComma, stringData_append, List.append_assoc, hab]⟩

/-- Claim C8: the next-pass re-review prompt textually contains every path
    of the previous pass's `editedFiles` when that set is non-empty, equals
    the generic re-review-everything phrasing when it is empty, and in both
    cases contains the instruction to check whether the fixes introduced
    new issues and fix remaining Critical or Warning issues. -/
theorem reReviewPrompt_spec (files : List String) :
    (∀ p, p ∈ files → containsChars (reReviewPrompt files) p.data) ∧
    (files = [] → reReviewPrompt files =
      "Re-review all source files that were just modified. Check if the fixes introduced new issues. Fix any remaining Critical or Warning issues.") ∧
    containsChars (reReviewPrompt files)
      ("Check if the fixes introduced new issues. Fix any remaining Critical or Warning issues.").data := by
  refine ⟨?_, ?_, ?_⟩
  · intro p hp
    have hlen : files.length > 0 :=
      List.length_pos.mpr (List.ne_nil_of_mem hp)
    rcases mem_joinComma files p hp with ⟨a, b, hab⟩
    refine ⟨("Re-review these modified files: ").data ++ a,
      b ++ (".").data ++
        (" Check if the fixes introduced new issues. Fix any remaining Critical or Warning issues.").data,
      ?_⟩
    rw [reReviewPrompt, reReviewFileList, if_pos hlen]
    simp [stringData_append, hab, List.append_assoc]
  · intro h
    subst h
    rfl
  · refine ⟨(reReviewFileList files).data ++ [' '], [], ?_⟩
    have hsp :
        (" Check if the fixes introduced new issues. Fix any remaining Critical or Warning issues.").data =
        [' '] ++
          ("Check if the fixes introduced new issues. Fix any remaining Critical or Warning issues.").data := by
      decide
    rw [reReviewPrompt, stringData_append, hsp]
    simp [List.append_assoc]

/-- Witness for claim C8: both paths of `{a.ts, b.ts}` appear in the
    generated prompt, and the empty set gives the generic phrasing. -/
theorem reReviewPrompt_spec_witness :
    containsChars (reReviewPrompt ["a.ts", "b.ts"]) ("a.ts").data ∧
    containsChars (reReviewPrompt ["a.ts", "b.ts"]) ("b.ts").data ∧
    reReviewPrompt [] =
      "Re-review all source files that were just modified. Check if the fixes introduced new issues. Fix any remaining Critical or Warning issues." :=
  ⟨(reReviewPrompt_spec ["a.ts", "b.ts"]).1 "a.ts" (by decide),
   (reReviewPrompt_spec ["a.ts", "b.ts"]).1 "b.ts" (by decide),
   (reReviewPrompt_spec []).2.1 rfl⟩

/-! Prompt length validation: claim C10. -/

/-- Claim C10: `runAgent` rejects, identically for every executor (hence
    before any engine call), any prompt longer than the configured maximum
    prompt length; the default bound is 50000 and every environment
    override is capped at 100000.  The length limit holds in every mode,
    the recursive-fix mode included, since the options are arbitrary. -/
theorem runAgent_rejects_long_prompt (env : Option String) (prompt : String)
    (opts : AgentOptions) (exec exec' : Nat → QueryResult)
    (h : MAX_PROMPT_LENGTH env < prompt.length) :
    (∃ e, runAgent env prompt opts exec = Except.error e ∧
      runAgent env prompt opts exec' = Except.error e) ∧
    MAX_PROMPT_LENGTH none = 50000 ∧
    (∀ v, MAX_PROMPT_LENGTH (some v) ≤ 100000) := by
  refine ⟨?_, rfl, ?_⟩
  · have hv : ∃ e, validatePrompt env prompt = Except.error e := by
      unfold validatePrompt
      by_cases he : trimList prompt.data = []
      · exact ⟨_, by rw [if_pos he]⟩
      · exact ⟨_, by rw [if_neg he, if_pos h]⟩
    rcases hv with ⟨e, he⟩
    refine ⟨e, ?_, ?_⟩
    · unfold runAgent
      rw [he]
    · unfold runAgent
      rw [he]
  · intro v
    show (if v = "" then 50000
      else
        match jsParseInt v with
        | none => 50000
        | some n => if n < 1 then 50000 else min n.toNat 100000) ≤ 100000
    by_cases hv : v = ""
    · simp [hv]
    · rw [if_neg hv]
      cases hp : jsParseInt v with
      | none =>
        show (50000 : Nat) ≤ 100000
        omega
      | some n =>
        show (if n < 1 then 50000 else min n.toNat 100000) ≤ 100000
        by_cases hn : n < 1
        · rw [if_pos hn]
          omega
        · rw [if_neg hn]
          exact Nat.min_le_right _ _

/-- Witness for claim C10: a 50001-character prompt is rejected with the
    default environment, in recursive-fix mode, for any executor. -/
theorem runAgent_rejects_long_prompt_witness :
    ∃ e, runAgent none bigPrompt (AgentOptions.mk false true (some 3))
        w5exec = Except.error e ∧
      runAgent none bigPrompt (AgentOptions.mk false true (some 3))
        w5exec = Except.error e := by
  have hlen : MAX_PROMPT_LENGTH none < bigPrompt.length := by
    show 50000 < (List.replicate 50001 'x').length
    rw [List.length_replicate]
    omega
  exact (runAgent_rejects_long_prompt none bigPrompt
    (AgentOptions.mk false true (some 3)) w5exec w5exec hlen).1

end CodeReview
